import Mathlib

/-!
Verification development for the feedtui archival content-recovery pipeline
(`src/feeds/twitter_archive.rs`, `src/twitter_parser.rs`).

Strings are modelled as sequences of characters (`String` wrapping
`List Char`).  The Rust source indexes and slices strings by UTF-8 byte
position; on the data this pipeline handles (ASCII CDX timestamps, URLs,
ASCII meta text) byte positions and character positions coincide, so the
character-level model below is faithful.  Rust string operations are
re-implemented at the character level so that every definition is
structurally recursive and kernel-evaluable.
-/

namespace Feedtui

/-- Character-level model of taking the first `n` characters of a string
(Rust byte slice from the front, ASCII regime). -/
def charTake (s : String) (n : Nat) : String :=
  ⟨s.data.take n⟩

/-- Character-level model of dropping the first `n` characters of a string. -/
def charDrop (s : String) (n : Nat) : String :=
  ⟨s.data.drop n⟩

/-- Model of Rust `str::starts_with` with a string pattern. -/
def strStartsWith (s pat : String) : Bool :=
  pat.data.isPrefixOf s.data

/-- Model of Rust `str::strip_prefix`: `some` of the remainder when `pat`
leads `s`, otherwise `none`. -/
def stripPre (s pat : String) : Option String :=
  if strStartsWith s pat then some (charDrop s pat.length) else none

/-- Model of Rust `char::is_whitespace` restricted to the whitespace that
occurs in this pipeline's data. -/
def isWs (c : Char) : Bool :=
  c == ' ' || c == '\t' || c == '\n' || c == '\r'

/-- Model of Rust `str::trim`: strip whitespace from both ends. -/
def strTrim (s : String) : String :=
  ⟨((s.data.dropWhile isWs).reverse.dropWhile isWs).reverse⟩

/-- Model of Rust `str::to_lowercase` (ASCII regime). -/
def strToLower (s : String) : String :=
  ⟨s.data.map Char.toLower⟩

/-- Substring test on character lists: does `pat` occur contiguously in `l`?
Model of Rust `str::contains` with a string pattern. -/
def containsList (pat : List Char) : List Char → Bool
  | [] => pat.isPrefixOf []
  | c :: rest => pat.isPrefixOf (c :: rest) || containsList pat rest

/-- Model of Rust `str::contains` with a string pattern. -/
def containsStr (s pat : String) : Bool :=
  containsList pat.data s.data

/-- Fuel-driven worker for `splitSub`.  The fuel is one more than the length
of the remaining input, so it never runs out for a non-empty separator:
every step either consumes one character or at least `sep.length ≥ 1`. -/
def splitSubGo (sep : List Char) : Nat → List Char → List Char → List (List Char)
  | 0, l, acc => [acc.reverse ++ l]
  | _ + 1, [], acc => [acc.reverse]
  | n + 1, c :: rest, acc =>
    if sep.isPrefixOf (c :: rest) then
      acc.reverse :: splitSubGo sep n ((c :: rest).drop sep.length) []
    else
      splitSubGo sep n rest (c :: acc)

/-- Model of Rust `str::split` with a (non-empty) string pattern, collected
into the full list of fields. -/
def splitSub (sep s : String) : List String :=
  if sep.data = [] then [s]
  else (splitSubGo sep.data (s.data.length + 1) s.data []).map (fun l => ⟨l⟩)

/-- Model of Rust `str::trim_start_matches` with a (non-empty) string
pattern: repeatedly strip the pattern from the front.  Fuel-driven; the
fuel is one more than the string length, enough because every successful
strip removes at least one character. -/
def trimStartMatchesGo (pat : String) : Nat → String → String
  | 0, s => s
  | n + 1, s =>
    if pat.data ≠ [] ∧ strStartsWith s pat then
      trimStartMatchesGo pat n (charDrop s pat.length)
    else s

/-- Model of Rust `str::trim_start_matches` with a string pattern. -/
def trimStartMatchesStr (s pat : String) : String :=
  trimStartMatchesGo pat (s.data.length + 1) s

/-- Model of Rust `str::trim_start_matches` with a char pattern
(removes every leading occurrence of the character). -/
def trimStartMatchesChar (s : String) (c : Char) : String :=
  ⟨s.data.dropWhile (· == c)⟩

/-- Model of Rust `str::split_once`: split at the first occurrence of the
character, `none` when the character does not occur. -/
def splitOnceChar (s : String) (c : Char) : Option (String × String) :=
  if s.data.contains c then
    some (⟨s.data.takeWhile (· != c)⟩, ⟨(s.data.dropWhile (· != c)).tail⟩)
  else none

/-- Model of Rust `str::lines` worker: the final field of the newline split
is dropped when empty (a trailing line terminator produces no extra line)
and kept verbatim otherwise; every non-final field was terminated by a
newline, so a trailing carriage return is stripped from it. -/
def rustLinesGo : List String → List String
  | [] => []
  | [last] => if last = "" then [] else [last]
  | p :: rest =>
    (if p.data.getLast? = some '\r' then (⟨p.data.dropLast⟩ : String) else p)
      :: rustLinesGo rest

/-- Model of Rust `str::lines`. -/
def rustLines (s : String) : List String :=
  rustLinesGo (splitSub "\n" s)

/-- `TwitterArchiveItem` from `src/feeds/mod.rs`. -/
structure TwitterArchiveItem where
  timestamp : String
  original_url : String
  archive_url : String
  tweet_text : Option String
  author : Option String
  date_display : String
deriving DecidableEq

/-- Default item used to read lists positionally (`List.getD`). -/
def dItem : TwitterArchiveItem :=
  { timestamp := "", original_url := "", archive_url := "",
    tweet_text := none, author := none, date_display := "" }

/-- `Tweet` from `src/twitter_message.rs`. -/
structure Tweet where
  id : String
  author : String
  text : String
  url : Option String
deriving DecidableEq

/-- `format_wayback_timestamp` from `src/feeds/twitter_archive.rs`:
parse a Wayback timestamp `YYYYMMDDHHmmss` into a readable date. -/
def format_wayback_timestamp (ts : String) : String :=
  if ts.length ≥ 8 then
    let year := charTake ts 4
    let month := charTake (charDrop ts 4) 2
    let day := charTake (charDrop ts 6) 2
    let time :=
      if ts.length ≥ 12 then
        " " ++ charTake (charDrop ts 8) 2 ++ ":" ++ charTake (charDrop ts 10) 2
      else ""
    year ++ "-" ++ month ++ "-" ++ day ++ time
  else ts

/-- `extract_author_from_url` from `src/feeds/twitter_archive.rs`:
extract the author handle from a URL like `twitter.com/username/status/...`. -/
def extract_author_from_url (url : String) : Option String :=
  let path := ((stripPre url "https://").or (stripPre url "http://")).getD url
  let path := (stripPre path "www.").getD path
  match (stripPre path "twitter.com/").or (stripPre path "x.com/") with
  | none => none
  | some rest =>
    let username : String := ⟨rest.data.takeWhile (· != '/')⟩
    if username = "" then none else some ("@" ++ username)

/-- The candidate tweet identifier computed inside `fetch_cdx_records`:
`original.split("/status/").nth(1).unwrap_or("")` followed by truncation at
the first of `?`, `%`, `#`, `"`. -/
def tweetIdOf (original : String) : String :=
  let after_status := ((splitSub "/status/" original).getD 1 "")
  ⟨after_status.data.takeWhile (fun c => c != '?' && c != '%' && c != '#' && c != '"')⟩

/-- The `is_empty || !starts-with-digit` test from `fetch_cdx_records`,
phrased on the first character. -/
def firstCharIsDigit (s : String) : Bool :=
  match s.data with
  | [] => false
  | c :: _ => c.isDigit

/-- The per-row classification closure inside `fetch_cdx_records`
(`src/feeds/twitter_archive.rs` lines 59–102): reject short rows, rows whose
`original` URL has no `/status/` marker, and rows whose candidate identifier
is empty or does not start with a digit; otherwise build the capture. -/
def classifyRow (row : List String) : Option TwitterArchiveItem :=
  if row.length < 3 then none
  else
    let timestamp := row.getD 0 ""
    let original := row.getD 1 ""
    if containsStr original "/status/" then
      let tweet_id := tweetIdOf original
      if tweet_id = "" ∨ firstCharIsDigit tweet_id = false then none
      else
        some { timestamp := timestamp
               original_url := original
               archive_url := "https://web.archive.org/web/" ++ timestamp ++ "if_/" ++ original
               tweet_text := none
               author := extract_author_from_url original
               date_display := format_wayback_timestamp timestamp }
    else none

/-- The pure row-processing core of `fetch_cdx_records`: skip the header
row, filter-map each remaining row through classification, and take at most
`max_items` results. -/
def fetch_cdx_items (rows : List (List String)) (max_items : Nat) : List TwitterArchiveItem :=
  ((rows.drop 1).filterMap classifyRow).take max_items

/-- `fetch_cdx_records` after the network stage, as a function of the JSON
parse outcome of the response body: a parse failure propagates as the
operation's error, a parsed row table is processed purely. -/
def fetch_cdx_records (parsed : Except String (List (List String)))
    (max_items : Nat) : Except String (List TwitterArchiveItem) :=
  match parsed with
  | .error e => .error e
  | .ok rows => .ok (fetch_cdx_items rows max_items)

/-- `items.iter_mut().zip(texts)` from `fetch`: overwrite `tweet_text` of
the leading items pairwise with the collected texts; items beyond the text
list are left untouched, texts beyond the item list are discarded. -/
def assignTexts : List TwitterArchiveItem → List (Option String) → List TwitterArchiveItem
  | [], _ => []
  | its, [] => its
  | it :: its, t :: ts => { it with tweet_text := t } :: assignTexts its ts

/-- Whether `order` is a completion order realisable by
`buffer_unordered(3)` over `n` tasks: it is a permutation of `0..n`, and the
`k`-th completed task must already have been admitted to the buffer, i.e.
its index is below `min n (k + 3)`. -/
def validOrderB (order : List Nat) (n : Nat) : Bool :=
  order.isPerm (List.range n) &&
    (List.range order.length).all (fun k => order.getD k 0 < min n (k + 3))

/-- The enrichment stage of `fetch` (`src/feeds/twitter_archive.rs` lines
294–307): the per-item page fetches are modelled by `fetchRes` (outcome per
`archive_url`), and `order` is the completion order in which
`buffer_unordered(3)` yields the results.  The collected `texts` list holds
the fetch outcomes in completion order, and is then zipped positionally
onto `items`. -/
def fetchEnrich (items : List TwitterArchiveItem) (fetchRes : String → Option String)
    (order : List Nat) : List TwitterArchiveItem :=
  let urls := items.map (·.archive_url)
  let texts := order.map (fun i => fetchRes (urls.getD i ""))
  assignTexts items texts

/-- Minimal model of a `serde_json::Value` as consumed by the JSON-LD
strategy: strings, arrays, objects (field lists), and everything else. -/
inductive JVal where
  | str (s : String)
  | arr (xs : List JVal)
  | obj (fields : List (String × JVal))
  | other

/-- `serde_json::Value::get` with a string key: field lookup on objects. -/
def JVal.getField : JVal → String → Option JVal
  | .obj fields, key => (fields.find? (fun f => f.1 == key)).map (·.2)
  | _, _ => none

/-- `serde_json::Value::as_str`. -/
def JVal.asStr : JVal → Option String
  | .str s => some s
  | _ => none

/-- Abstraction of one parsed HTML document, exposing exactly the selector
queries `extract_tweet_text` performs (the HTML-parsing capability of the
spec).  Each meta field is the `content` attribute of the first matching
tag (`none` when no such tag/attribute exists); `tweet_text_elem` is the
joined inner text of the first `p.tweet-text` element; `json_ld_scripts`
holds the JSON parse outcome of each `script type=application/ld+json`
block in document order (`none` for malformed JSON). -/
structure HtmlDoc where
  og_description : Option String
  twitter_description : Option String
  meta_description : Option String
  tweet_text_elem : Option String
  json_ld_scripts : List (Option JVal)

/-- `extract_meta_content`: trim the `content` attribute of the first
matching meta tag, mapping an empty trimmed value to `none`. -/
def extract_meta_content (attr : Option String) : Option String :=
  match attr with
  | none => none
  | some content =>
    let text := strTrim content
    if text = "" then none else some text

/-- `extract_element_text`: trim the joined inner text of the first
matching element, mapping an empty trimmed value to `none`. -/
def extract_element_text (txt : Option String) : Option String :=
  match txt with
  | none => none
  | some raw =>
    let text := strTrim raw
    if text = "" then none else some text

/-- `extract_article_body_from_value`: read `articleBody` as a string from
one JSON value, trimming and rejecting an empty result. -/
def extract_article_body_from_value (val : JVal) : Option String :=
  match (val.getField "articleBody").bind JVal.asStr with
  | none => none
  | some body =>
    let text := strTrim body
    if text = "" then none else some text

/-- First `articleBody` among the elements of a JSON-LD array. -/
def firstArticleBody : List JVal → Option String
  | [] => none
  | v :: vs =>
    match extract_article_body_from_value v with
    | some b => some b
    | none => firstArticleBody vs

/-- `extract_json_ld_article_body`: walk the JSON-LD script blocks in
order; for each well-formed one try the value itself, then — when it is an
array — each element; malformed blocks are skipped. -/
def extract_json_ld_article_body : List (Option JVal) → Option String
  | [] => none
  | none :: rest => extract_json_ld_article_body rest
  | some v :: rest =>
    match extract_article_body_from_value v with
    | some b => some b
    | none =>
      match v with
      | .arr items =>
        match firstArticleBody items with
        | some b => some b
        | none => extract_json_ld_article_body rest
      | _ => extract_json_ld_article_body rest

/-- The strategy-3 boilerplate guard from `extract_tweet_text`: a generic
`description` value is accepted only when its lowercasing avoids the known
boilerplate openings and substrings and its length exceeds 20. -/
def descriptionAccepted (text : String) : Bool :=
  let lower := strToLower text
  !(strStartsWith lower "from breaking news") &&
  !(strStartsWith lower "the latest posts") &&
  !(strStartsWith lower "post with") &&
  !(containsStr lower "on twitter") &&
  !(containsStr lower "on x") &&
  decide (text.length > 20)

/-- `extract_tweet_text` from `src/feeds/twitter_archive.rs`: the ordered,
short-circuiting five-strategy cascade over one parsed document. -/
def extract_tweet_text (doc : HtmlDoc) : Option String :=
  match extract_meta_content doc.og_description with
  | some text => some text
  | none =>
  match extract_meta_content doc.twitter_description with
  | some text => some text
  | none =>
  match extract_meta_content doc.meta_description with
  | some text =>
    if descriptionAccepted text then some text
    else
      match extract_element_text doc.tweet_text_elem with
      | some t => some t
      | none => extract_json_ld_article_body doc.json_ld_scripts
  | none =>
  match extract_element_text doc.tweet_text_elem with
  | some t => some t
  | none => extract_json_ld_article_body doc.json_ld_scripts

/-- Finalisation step of `parse_search_results`: push the current
`(author, text, url)` tuple as a `Tweet` when its URL is non-empty. -/
def pushTweet (tweets : List Tweet) (cur : String × String × String) : List Tweet :=
  if cur.2.2 = "" then tweets
  else tweets ++ [{ id := cur.2.2, author := cur.1, text := cur.2.1, url := some cur.2.2 }]

/-- Optional finalisation of the in-progress tuple. -/
def flushCur (tweets : List Tweet) : Option (String × String × String) → List Tweet
  | some cur => pushTweet tweets cur
  | none => tweets

/-- The line loop of `parse_search_results` (`src/twitter_parser.rs`):
state is the accumulated tweets plus the in-progress
`(author, text, url)` tuple. -/
def parseLinesGo (tweets : List Tweet) (cur : Option (String × String × String)) :
    List String → List Tweet
  | [] => flushCur tweets cur
  | l :: rest =>
    let line := strTrim l
    if strStartsWith line "@" then
      let tweets := flushCur tweets cur
      match splitOnceChar line ':' with
      | some (author, text) =>
        parseLinesGo tweets (some (trimStartMatchesChar author '@', strTrim text, "")) rest
      | none => parseLinesGo tweets none rest
    else if strStartsWith line "URL:" || strStartsWith line "http" then
      match cur with
      | some (author, text, _) =>
        parseLinesGo tweets (some (author, text, strTrim (trimStartMatchesStr line "URL:"))) rest
      | none => parseLinesGo tweets none rest
    else if line = "---" ∨ line = "" then
      parseLinesGo (flushCur tweets cur) none rest
    else
      match cur with
      | some (author, text, url) =>
        let text := if text ≠ "" then text ++ " " ++ line else text ++ line
        parseLinesGo tweets (some (author, text, url)) rest
      | none => parseLinesGo tweets none rest

/-- `parse_search_results` from `src/twitter_parser.rs`. -/
def parse_search_results (output : String) : List Tweet :=
  parseLinesGo [] none (rustLines output)

/-! ## Helper lemmas -/

theorem charTake_append (a b : String) {n : Nat} (h : a.length = n) :
    charTake (a ++ b) n = a := by
  apply String.ext
  show ((a ++ b).data.take n) = a.data
  rw [String.data_append, ← h]
  exact List.take_left a.data b.data

theorem charDrop_append (a b : String) {n : Nat} (h : a.length = n) :
    charDrop (a ++ b) n = b := by
  apply String.ext
  show ((a ++ b).data.drop n) = b.data
  rw [String.data_append, ← h]
  exact List.drop_left a.data b.data

theorem charDrop_add (s : String) (n k : Nat) :
    charDrop s (n + k) = charDrop (charDrop s n) k := by
  apply String.ext
  show s.data.drop (n + k) = (s.data.drop n).drop k
  rw [List.drop_drop]

/-! ## Claim theorems -/

/-- C3: for every parsed index response and every caller-specified maximum,
the list of captures returned by the index-query stage has length at most
`max_items` (the `+ 1` on the request only compensates for the header row,
which is discarded before the `take`). -/
theorem c3_index_stage_respects_limit (rows : List (List String)) (max_items : Nat) :
    (fetch_cdx_items rows max_items).length ≤ max_items := by
  simp only [fetch_cdx_items]
  exact List.length_take_le max_items ((rows.drop 1).filterMap classifyRow)

/-- C4: row 0 of the response is skipped unconditionally as a header (its
contents never influence the result), and a response consisting of only the
header row yields a successful result with zero captures, not an error. -/
theorem c4_header_always_skipped :
    (∀ (r₁ r₂ : List String) (rest : List (List String)) (n : Nat),
      fetch_cdx_items (r₁ :: rest) n = fetch_cdx_items (r₂ :: rest) n) ∧
    (∀ (r : List String) (n : Nat),
      fetch_cdx_records (Except.ok [r]) n = Except.ok []) := by
  constructor
  · intro r₁ r₂ rest n
    simp [fetch_cdx_items]
  · intro r n
    simp [fetch_cdx_records, fetch_cdx_items]

/-- C6: classification is total on raw rows — it only accepts or rejects —
and every row with fewer than 3 columns is rejected. -/
theorem c6_classify_total_short_rows_rejected (row : List String) :
    (row.length < 3 → classifyRow row = none) ∧
    (classifyRow row = none ∨ ∃ c, classifyRow row = some c) := by
  constructor
  · intro h
    simp [classifyRow, h]
  · cases h : classifyRow row with
    | none => exact Or.inl rfl
    | some c => exact Or.inr ⟨c, rfl⟩

/-- Witness for C6 at the concrete two-column row `["ts", "url"]`. -/
theorem c6_witness :
    (["ts", "url"] : List String).length < 3 ∧ classifyRow ["ts", "url"] = none :=
  ⟨by decide, (c6_classify_total_short_rows_rejected ["ts", "url"]).1 (by decide)⟩

/-- C8: author-handle extraction on the spec's four example URLs, plus the
shape guarantee that every successful extraction is a non-empty handle
prefixed with an `@`. -/
theorem c8_extract_author :
    extract_author_from_url "https://twitter.com/gethigher77/status/123456" =
      some "@gethigher77" ∧
    extract_author_from_url "https://www.twitter.com/handle/status/999" =
      some "@handle" ∧
    extract_author_from_url "https://example.com/page" = none ∧
    extract_author_from_url "https://twitter.com/" = none ∧
    ∀ url : String, extract_author_from_url url = none ∨
      ∃ handle : String, handle ≠ "" ∧
        extract_author_from_url url = some ("@" ++ handle) := by
  refine ⟨by decide, by decide, by decide, by decide, ?_⟩
  intro url
  simp only [extract_author_from_url]
  generalize ((stripPre url "https://").or (stripPre url "http://")).getD url = p1
  generalize (stripPre p1 "www.").getD p1 = p2
  rcases h : (stripPre p2 "twitter.com/").or (stripPre p2 "x.com/") with _ | rest
  · exact Or.inl (by simp [h])
  · simp only [h]
    by_cases hu : (⟨rest.data.takeWhile (· != '/')⟩ : String) = ""
    · exact Or.inl (by simp [hu])
    · exact Or.inr ⟨⟨rest.data.takeWhile (· != '/')⟩, hu, by simp [hu]⟩

/-- C7: `format_wayback_timestamp` splits an input of length at least 8
into year(4)-month(2)-day(2), appends " HH:MM" from positions 8–12 when the
length is at least 12, returns shorter inputs unmodified, and satisfies the
three concrete examples. -/
theorem c7_format_timestamp (y m d hh mm rest r s : String) :
    (y.length = 4 → m.length = 2 → d.length = 2 → r.length < 4 →
      format_wayback_timestamp (y ++ m ++ d ++ r) = y ++ "-" ++ m ++ "-" ++ d) ∧
    (y.length = 4 → m.length = 2 → d.length = 2 → hh.length = 2 → mm.length = 2 →
      format_wayback_timestamp (y ++ m ++ d ++ hh ++ mm ++ rest) =
        y ++ "-" ++ m ++ "-" ++ d ++ " " ++ hh ++ ":" ++ mm) ∧
    (s.length < 8 → format_wayback_timestamp s = s) ∧
    format_wayback_timestamp "20230615143022" = "2023-06-15 14:30" ∧
    format_wayback_timestamp "20230615" = "2023-06-15" ∧
    format_wayback_timestamp "2023" = "2023" := by
  refine ⟨?_, ?_, ?_, by decide, by decide, by decide⟩
  · intro hy hm hd hr
    have hlen : (y ++ m ++ d ++ r).length = 8 + r.length := by
      simp [String.length_append, hy, hm, hd]
    rw [String.append_assoc, String.append_assoc]
    have e4 : charTake (y ++ (m ++ (d ++ r))) 4 = y := charTake_append _ _ hy
    have d4 : charDrop (y ++ (m ++ (d ++ r))) 4 = m ++ (d ++ r) := charDrop_append _ _ hy
    have e6 : charTake (charDrop (y ++ (m ++ (d ++ r))) 6) 2 = d := by
      have h6 : charDrop (y ++ (m ++ (d ++ r))) 6 =
          charDrop (charDrop (y ++ (m ++ (d ++ r))) 4) 2 := charDrop_add _ 4 2
      rw [h6, d4, charDrop_append _ _ hm]
      exact charTake_append _ _ hd
    simp only [format_wayback_timestamp]
    rw [if_pos (by rw [← String.append_assoc, ← String.append_assoc]; omega),
      if_neg (by rw [← String.append_assoc, ← String.append_assoc]; omega)]
    rw [e4, d4, charTake_append _ _ hm, e6]
    simp [String.append_assoc]
  · intro hy hm hd hhh hmm
    have hlen : (y ++ m ++ d ++ hh ++ mm ++ rest).length = 12 + rest.length := by
      simp [String.length_append, hy, hm, hd, hhh, hmm]
    rw [String.append_assoc, String.append_assoc, String.append_assoc,
      String.append_assoc]
    have e4 : charTake (y ++ (m ++ (d ++ (hh ++ (mm ++ rest))))) 4 = y :=
      charTake_append _ _ hy
    have d4 : charDrop (y ++ (m ++ (d ++ (hh ++ (mm ++ rest))))) 4 =
        m ++ (d ++ (hh ++ (mm ++ rest))) := charDrop_append _ _ hy
    have d6 : charDrop (y ++ (m ++ (d ++ (hh ++ (mm ++ rest))))) 6 =
        d ++ (hh ++ (mm ++ rest)) := by
      rw [charDrop_add _ 4 2, d4]
      exact charDrop_append _ _ hm
    have d8 : charDrop (y ++ (m ++ (d ++ (hh ++ (mm ++ rest))))) 8 =
        hh ++ (mm ++ rest) := by
      rw [charDrop_add _ 6 2, d6]
      exact charDrop_append _ _ hd
    have d10 : charDrop (y ++ (m ++ (d ++ (hh ++ (mm ++ rest))))) 10 =
        mm ++ rest := by
      rw [charDrop_add _ 8 2, d8]
      exact charDrop_append _ _ hhh
    simp only [format_wayback_timestamp]
    rw [if_pos (by rw [← String.append_assoc, ← String.append_assoc,
        ← String.append_assoc, ← String.append_assoc]; omega),
      if_pos (by rw [← String.append_assoc, ← String.append_assoc,
        ← String.append_assoc, ← String.append_assoc]; omega)]
    rw [e4, d4, charTake_append _ _ hm, d6, charTake_append _ _ hd,
      d8, charTake_append _ _ hhh, d10, charTake_append _ _ hmm]
    simp [String.append_assoc]
  · intro hs
    simp [format_wayback_timestamp, Nat.not_le.mpr hs]

/-- Witness for C7: the implications instantiated on "20230615143022"
(= "2023" ++ "06" ++ "15" ++ "14" ++ "30" ++ "22"), "20230615" and "2023". -/
theorem c7_witness :
    format_wayback_timestamp ("2023" ++ "06" ++ "15" ++ "14" ++ "30" ++ "22") =
      "2023" ++ "-" ++ "06" ++ "-" ++ "15" ++ " " ++ "14" ++ ":" ++ "30" ∧
    format_wayback_timestamp ("2023" ++ "06" ++ "15" ++ "") =
      "2023" ++ "-" ++ "06" ++ "-" ++ "15" ∧
    format_wayback_timestamp "2023" = "2023" :=
  ⟨(c7_format_timestamp "2023" "06" "15" "14" "30" "22" "" "").2.1
      (by decide) (by decide) (by decide) (by decide) (by decide),
   (c7_format_timestamp "2023" "06" "15" "14" "30" "22" "" "").1
      (by decide) (by decide) (by decide) (by decide),
   (c7_format_timestamp "2023" "06" "15" "14" "30" "22" "" "2023").2.2.1
      (by decide)⟩

/-- C5: on any row of full arity, classification rejects exactly when the
`original_url` column lacks the `/status/` marker, or the candidate
identifier (the text after the marker truncated at the first of
`?`, `%`, `#`, `"`) is empty or does not start with a decimal digit; in
every other case it produces a capture. -/
theorem c5_classify_rejection_characterisation (row : List String) (h3 : 3 ≤ row.length) :
    classifyRow row = none ↔
      (containsStr (row.getD 1 "") "/status/" = false ∨
       tweetIdOf (row.getD 1 "") = "" ∨
       firstCharIsDigit (tweetIdOf (row.getD 1 "")) = false) := by
  have hnl : ¬ row.length < 3 := by omega
  simp only [classifyRow, if_neg hnl]
  by_cases hc : containsStr (row.getD 1 "") "/status/"
  · rw [if_pos hc]
    by_cases hrej : tweetIdOf (row.getD 1 "") = "" ∨
        firstCharIsDigit (tweetIdOf (row.getD 1 "")) = false
    · rw [if_pos hrej]
      exact iff_of_true rfl (Or.inr hrej)
    · rw [if_neg hrej]
      push_neg at hrej
      refine iff_of_false (by simp) ?_
      rintro (h | h | h)
      · rw [h] at hc
        exact Bool.noConfusion hc
      · exact hrej.1 h
      · exact hrej.2 h
  · rw [if_neg hc]
    simp [Bool.not_eq_true] at hc
    simp [hc]

/-- Witness for C5 at a concrete accepted row. -/
theorem c5_witness :
    3 ≤ (["20230615143022", "https://twitter.com/testuser/status/123", "200"] :
      List String).length ∧
    (classifyRow ["20230615143022", "https://twitter.com/testuser/status/123", "200"] = none ↔
      (containsStr "https://twitter.com/testuser/status/123" "/status/" = false ∨
       tweetIdOf "https://twitter.com/testuser/status/123" = "" ∨
       firstCharIsDigit (tweetIdOf "https://twitter.com/testuser/status/123") = false)) :=
  ⟨by decide,
   c5_classify_rejection_characterisation
     ["20230615143022", "https://twitter.com/testuser/status/123", "200"] (by decide)⟩

/-- Frame equality on captures: every field except `tweet_text` agrees. -/
def frameEq (a b : TwitterArchiveItem) : Prop :=
  a.timestamp = b.timestamp ∧ a.original_url = b.original_url ∧
  a.archive_url = b.archive_url ∧ a.author = b.author ∧
  a.date_display = b.date_display

theorem frameEq_refl (a : TwitterArchiveItem) : frameEq a a :=
  ⟨rfl, rfl, rfl, rfl, rfl⟩

theorem assignTexts_length (its : List TwitterArchiveItem) (ts : List (Option String)) :
    (assignTexts its ts).length = its.length := by
  induction its generalizing ts with
  | nil => simp [assignTexts]
  | cons a as ih =>
    cases ts with
    | nil => simp [assignTexts]
    | cons t ts' => simp [assignTexts, ih]

theorem assignTexts_frame (its : List TwitterArchiveItem) (ts : List (Option String))
    (i : Nat) : frameEq ((assignTexts its ts).getD i dItem) (its.getD i dItem) := by
  induction its generalizing ts i with
  | nil =>
    simp only [assignTexts]
    exact frameEq_refl _
  | cons a as ih =>
    cases ts with
    | nil =>
      simp only [assignTexts]
      exact frameEq_refl _
    | cons t ts' =>
      cases i with
      | zero => exact ⟨rfl, rfl, rfl, rfl, rfl⟩
      | succ j => simpa [assignTexts] using ih ts' j

/-- C2: enrichment returns exactly as many items as it was given, and for
every position `i` every field of item `i` other than `tweet_text` —
`original_url` in particular — is unchanged, for every fetch outcome and
every completion order. -/
theorem c2_enrich_preserves_count_and_frame (items : List TwitterArchiveItem)
    (fetchRes : String → Option String) (order : List Nat) :
    (fetchEnrich items fetchRes order).length = items.length ∧
    ∀ i : Nat,
      ((fetchEnrich items fetchRes order).getD i dItem).original_url =
        (items.getD i dItem).original_url ∧
      frameEq ((fetchEnrich items fetchRes order).getD i dItem) (items.getD i dItem) := by
  refine ⟨assignTexts_length _ _, fun i => ?_⟩
  have h := assignTexts_frame items
    (order.map (fun i => fetchRes ((items.map (·.archive_url)).getD i ""))) i
  exact ⟨h.2.1, h⟩

/-- C9: the extraction cascade is ordered and short-circuiting — a
populated primary (og) description wins over a populated legacy inline
element; an empty primary tag falls through to a populated secondary
(twitter card) description; and a document whose only candidate is a
boilerplate-rejected generic description yields none. -/
theorem c9_cascade_precedence (doc : HtmlDoc) (t v e u d : String) :
    (doc.og_description = some t → strTrim t ≠ "" →
      doc.tweet_text_elem = some v → strTrim v ≠ "" →
      extract_tweet_text doc = some (strTrim t)) ∧
    (doc.og_description = some e → strTrim e = "" →
      doc.twitter_description = some u → strTrim u ≠ "" →
      extract_tweet_text doc = some (strTrim u)) ∧
    (doc.og_description = none → doc.twitter_description = none →
      doc.meta_description = some d → descriptionAccepted (strTrim d) = false →
      doc.tweet_text_elem = none → doc.json_ld_scripts = [] →
      extract_tweet_text doc = none) := by
  refine ⟨?_, ?_, ?_⟩
  · intro h1 h2 _ _
    simp [extract_tweet_text, extract_meta_content, h1, h2]
  · intro h1 h2 h3 h4
    simp [extract_tweet_text, extract_meta_content, h1, h2, h3, h4]
  · intro h1 h2 h3 hbp h5 h6
    by_cases htd : strTrim d = ""
    · simp [extract_tweet_text, extract_meta_content, extract_element_text,
        extract_json_ld_article_body, h1, h2, h3, h5, h6, htd]
    · simp [extract_tweet_text, extract_meta_content, extract_element_text,
        extract_json_ld_article_body, h1, h2, h3, h5, h6, htd, hbp]

/-- Witness for C9: the three cascade scenarios at concrete documents. -/
theorem c9_witness :
    extract_tweet_text
      { og_description := some "OG wins", twitter_description := none,
        meta_description := none, tweet_text_elem := some "Should not be picked",
        json_ld_scripts := [] } = some (strTrim "OG wins") ∧
    extract_tweet_text
      { og_description := some "", twitter_description := some "Fallback to twitter card",
        meta_description := none, tweet_text_elem := none,
        json_ld_scripts := [] } = some (strTrim "Fallback to twitter card") ∧
    extract_tweet_text
      { og_description := none, twitter_description := none,
        meta_description := some "From breaking news and entertainment to sports",
        tweet_text_elem := none, json_ld_scripts := [] } = none :=
  ⟨(c9_cascade_precedence
      { og_description := some "OG wins", twitter_description := none,
        meta_description := none, tweet_text_elem := some "Should not be picked",
        json_ld_scripts := [] } "OG wins" "Should not be picked" "" "" "").1
      rfl (by decide) rfl (by decide),
   (c9_cascade_precedence
      { og_description := some "", twitter_description := some "Fallback to twitter card",
        meta_description := none, tweet_text_elem := none,
        json_ld_scripts := [] } "" "" "" "Fallback to twitter card" "").2.1
      rfl (by decide) rfl (by decide),
   (c9_cascade_precedence
      { og_description := none, twitter_description := none,
        meta_description := some "From breaking news and entertainment to sports",
        tweet_text_elem := none, json_ld_scripts := [] } "" "" "" ""
      "From breaking news and entertainment to sports").2.2
      rfl rfl rfl (by decide) rfl rfl⟩

/-- Shape invariant of every tweet the parser emits: a non-empty URL,
stored both in `url` and as the `id`. -/
def goodTweet (t : Tweet) : Prop :=
  ∃ u : String, u ≠ "" ∧ t.url = some u ∧ t.id = u

theorem mem_pushTweet {tweets : List Tweet} {cur : String × String × String} {t : Tweet}
    (h : t ∈ pushTweet tweets cur) : t ∈ tweets ∨ goodTweet t := by
  unfold pushTweet at h
  split at h
  · exact Or.inl h
  · next hne =>
    rcases List.mem_append.mp h with h' | h'
    · exact Or.inl h'
    · refine Or.inr ⟨cur.2.2, hne, ?_, ?_⟩
      · rw [List.mem_singleton.mp h']
      · rw [List.mem_singleton.mp h']

theorem mem_flushCur {tweets : List Tweet} {cur : Option (String × String × String)}
    {t : Tweet} (h : t ∈ flushCur tweets cur) : t ∈ tweets ∨ goodTweet t := by
  cases cur with
  | none => exact Or.inl h
  | some c => exact mem_pushTweet h

theorem flushCur_good {tweets : List Tweet} {cur : Option (String × String × String)}
    (hall : ∀ t ∈ tweets, goodTweet t) :
    ∀ t ∈ flushCur tweets cur, goodTweet t := by
  intro t ht
  rcases mem_flushCur ht with h | h
  · exact hall t h
  · exact h

theorem parseLinesGo_good (lines : List String) :
    ∀ (tweets : List Tweet) (cur : Option (String × String × String)),
      (∀ t ∈ tweets, goodTweet t) →
      ∀ t ∈ parseLinesGo tweets cur lines, goodTweet t := by
  induction lines with
  | nil =>
    intro tweets cur hall t ht
    exact flushCur_good hall t ht
  | cons l rest ih =>
    intro tweets cur hall t ht
    simp only [parseLinesGo] at ht
    split at ht
    · -- line starts with '@'
      split at ht
      · exact ih _ _ (flushCur_good hall) t ht
      · exact ih _ _ (flushCur_good hall) t ht
    · split at ht
      · -- URL / http line
        split at ht
        · exact ih _ _ hall t ht
        · exact ih _ _ hall t ht
      · split at ht
        · -- separator line
          exact ih _ _ (flushCur_good hall) t ht
        · -- continuation line
          split at ht
          · exact ih _ _ hall t ht
          · exact ih _ _ hall t ht

/-- C10: every tweet returned by `parse_search_results` carries a non-empty
URL, and its `id` equals that URL — entries that never saw a URL line are
dropped rather than emitted. -/
theorem c10_parsed_tweets_have_url_as_id (output : String) (t : Tweet)
    (h : t ∈ parse_search_results output) :
    ∃ u : String, u ≠ "" ∧ t.url = some u ∧ t.id = u :=
  parseLinesGo_good (rustLines output) [] none (by intro t' ht'; cases ht') t h

/-- Witness for C10 at a concrete two-line input producing one tweet. -/
theorem c10_witness :
    ∃ u : String, u ≠ "" ∧
      (Tweet.mk "https://twitter.com/u/status/1" "u1" "Hi"
        (some "https://twitter.com/u/status/1")).url = some u ∧
      (Tweet.mk "https://twitter.com/u/status/1" "u1" "Hi"
        (some "https://twitter.com/u/status/1")).id = u :=
  c10_parsed_tweets_have_url_as_id "@u1: Hi\nURL: https://twitter.com/u/status/1"
    (Tweet.mk "https://twitter.com/u/status/1" "u1" "Hi"
      (some "https://twitter.com/u/status/1"))
    (by decide)

/-- First capture of the C1 scenario. -/
def c1ItemA : TwitterArchiveItem :=
  { timestamp := "20230615143022"
    original_url := "https://twitter.com/alice/status/111"
    archive_url := "https://web.archive.org/web/20230615143022if_/https://twitter.com/alice/status/111"
    tweet_text := none
    author := some "@alice"
    date_display := "2023-06-15 14:30" }

/-- Second capture of the C1 scenario. -/
def c1ItemB : TwitterArchiveItem :=
  { timestamp := "20230701090000"
    original_url := "https://twitter.com/bob/status/222"
    archive_url := "https://web.archive.org/web/20230701090000if_/https://twitter.com/bob/status/222"
    tweet_text := none
    author := some "@bob"
    date_display := "2023-07-01 09:00" }

/-- Fetch outcome of the C1 scenario: each archive page yields its own
distinct text. -/
def c1Fetch : String → Option String := fun url =>
  if url = c1ItemA.archive_url then some "text of tweet 111" else some "text of tweet 222"

/-- C1: refuted on the code.  `buffer_unordered(3)` yields fetch results in
completion order and `fetch` zips that list positionally onto the items, so
under the realisable completion order `[1, 0]` (the second fetch finishes
first) capture 0 receives the text fetched from capture 1's `archive_url`
instead of the text of its own, even though its own fetch succeeded with a
different text. -/
theorem c1_completion_order_misassigns_text :
    validOrderB [1, 0] 2 = true ∧
    c1Fetch c1ItemA.archive_url = some "text of tweet 111" ∧
    c1Fetch c1ItemB.archive_url = some "text of tweet 222" ∧
    ((fetchEnrich [c1ItemA, c1ItemB] c1Fetch [1, 0]).getD 0 dItem).tweet_text =
      some "text of tweet 222" ∧
    some "text of tweet 222" ≠ c1Fetch c1ItemA.archive_url := by
  refine ⟨by decide, by decide, by decide, by decide, by decide⟩

end Feedtui
